import Mathlib

/-!
Verification of the sales-aggregation core of the Herbalife sales calculator.

The embedding models the aggregation routine `calculateTotals` and its helper
functions `getMonthFromDate`, `getAllUniqueMonths`, `getFilteredDailyData` and
`getFilteredTotals`, translated from the single React component source file.

Modelling conventions:
* Monetary amounts are modelled as exact rationals. The source computes with
  JavaScript doubles; the spec states exact arithmetic identities, so the
  numeric carrier is the idealised field of rationals.
* Rational addition is expressed through `qadd` (proved equal to `+` below)
  because the library addition on the rationals is marked irreducible and
  would block kernel evaluation of concrete witnesses.
* A raw row is an association list from column-name strings to cell strings.
  JavaScript truthiness on the resolved cell collapses a missing key and the
  empty string, which is faithful because the source only ever branches on
  truthiness before using a resolved value.
* String routines (trim, toLowerCase, split, the numeric parsers) are modelled
  character-list by character-list after their ECMAScript definitions, for the
  ASCII fragment that the data actually uses. The literal Infinity accepted by
  parseFloat, non-ASCII case mapping, and host-defined legacy date formats are
  outside the model.
* JavaScript Date parsing is modelled for month/day/year slash dates with
  in-range components (the format the application documents); the value
  attached to a date is a calendar encoding that is strictly monotone in
  calendar order, standing in for the epoch-millisecond timestamp.
* The array sort of ECMAScript 2019 is stable, so it is modelled by the stable
  `List.insertionSort`, which agrees with any stable sort for a total
  transitive comparison.
-/

/-- Kernel-reducible addition on the rationals, used inside the executable
definitions so that concrete runs evaluate by `decide`. -/
def qadd (a b : ℚ) : ℚ := mkRat (a.num * b.den + b.num * a.den) (a.den * b.den)

/-- Whitespace recognised by ECMAScript trimming and numeric parsing
(the characters that occur in practice). -/
def isJsSpace (c : Char) : Bool :=
  c = ' ' ∨ c = '\t' ∨ c = '\n' ∨ c = '\r' ∨ c.toNat = 11 ∨ c.toNat = 12 ∨ c.toNat = 160

/-- Model of `String.prototype.trim`. -/
def jsTrim (s : String) : String :=
  String.mk (((s.data.dropWhile isJsSpace).reverse.dropWhile isJsSpace).reverse)

/-- Model of `String.prototype.toLowerCase` on the ASCII fragment. -/
def jsToLower (s : String) : String :=
  String.mk (s.data.map Char.toLower)

/-- Model of `String.prototype.split` with a one-character separator. -/
def splitOnChar (sep : Char) : List Char → List (List Char)
  | [] => [[]]
  | c :: cs =>
    if c = sep then [] :: splitOnChar sep cs
    else
      match splitOnChar sep cs with
      | [] => [[c]]
      | h :: t => (c :: h) :: t

/-- Remove the first occurrence of a character, the effect of
`String.prototype.replace` with a one-character string pattern and an empty
replacement. -/
def removeFirstChar (x : Char) : List Char → List Char
  | [] => []
  | c :: cs => if c = x then cs else c :: removeFirstChar x cs

/-- Numeric value of a digit string. -/
def natOfDigits (cs : List Char) : Nat :=
  cs.foldl (fun n c => n * 10 + (c.toNat - 48)) 0

/-- Parse a nonempty all-digit character list. -/
def digitsToNat (cs : List Char) : Option Nat :=
  if cs ≠ [] ∧ cs.all Char.isDigit then some (natOfDigits cs) else none

/-- Model of `parseFloat`: skip leading whitespace, optional sign, longest
decimal-literal prefix (digits, optional fraction, optional exponent);
`none` models NaN. -/
def jsParseFloat (s : String) : Option ℚ :=
  let cs0 := s.data.dropWhile isJsSpace
  let sgn : Int := match cs0 with | '-' :: _ => -1 | _ => 1
  let cs1 := match cs0 with | '-' :: t => t | '+' :: t => t | _ => cs0
  let intDigits := cs1.takeWhile Char.isDigit
  let rest1 := cs1.dropWhile Char.isDigit
  let fracDigits := match rest1 with | '.' :: t => t.takeWhile Char.isDigit | _ => []
  let rest2 := match rest1 with | '.' :: t => t.dropWhile Char.isDigit | _ => rest1
  if intDigits = [] ∧ fracDigits = [] then none
  else
    let expVal : Int :=
      match rest2 with
      | e :: t =>
        if e = 'e' ∨ e = 'E' then
          let esgn : Int := match t with | '-' :: _ => -1 | _ => 1
          let t1 := match t with | '-' :: t2 => t2 | '+' :: t2 => t2 | _ => t
          let expDigits := t1.takeWhile Char.isDigit
          if expDigits = [] then 0 else esgn * natOfDigits expDigits
        else 0
      | [] => 0
    let mant : Nat := natOfDigits (intDigits ++ fracDigits)
    let shift : Int := expVal - fracDigits.length
    if 0 ≤ shift then some (mkRat (sgn * mant * 10 ^ shift.toNat) 1)
    else some (mkRat (sgn * mant) (10 ^ (-shift).toNat))

/-- Model of `parseInt` with radix 10: skip leading whitespace, optional sign,
longest digit prefix; `none` models NaN. -/
def jsParseInt (s : List Char) : Option Int :=
  let cs0 := s.dropWhile isJsSpace
  let sgn : Int := match cs0 with | '-' :: _ => -1 | _ => 1
  let cs1 := match cs0 with | '-' :: t => t | '+' :: t => t | _ => cs0
  let ds := cs1.takeWhile Char.isDigit
  if ds = [] then none else some (sgn * natOfDigits ds)

/-- Leap-year test of the Gregorian calendar. -/
def isLeapYear (y : Nat) : Bool :=
  (y % 4 = 0 ∧ y % 100 ≠ 0) ∨ y % 400 = 0

/-- Number of days of a month, used to validate a parsed calendar date. -/
def daysInMonth (m y : Nat) : Nat :=
  if m = 2 then (if isLeapYear y then 29 else 28)
  else if m = 4 ∨ m = 6 ∨ m = 9 ∨ m = 11 then 30
  else 31

/-- Model of `new Date(s).getTime()` for in-range month/day/year slash dates.
The returned encoding is strictly monotone in calendar order, standing in for
the epoch milliseconds; `none` models an invalid date. Host-defined legacy
formats beyond this shape are outside the model. -/
def jsDateTime (s : String) : Option Nat :=
  match splitOnChar '/' s.data with
  | [ms, ds, ys] =>
    match digitsToNat ms, digitsToNat ds, digitsToNat ys with
    | some m, some d, some y =>
      if 1 ≤ m ∧ m ≤ 12 ∧ 1 ≤ d ∧ d ≤ daysInMonth m y then some (y * 372 + m * 31 + d)
      else none
    | _, _, _ => none
  | _ => none

/-- Date key of a daily entry, defaulting to zero where the source comparator
would see NaN; only used under hypotheses that make every key valid. -/
def dateValOf (s : String) : Nat := (jsDateTime s).getD 0

/-- Month index extracted by the generic `new Date(dateString)` fallback of
`getMonthFromDate`, reached only for strings with fewer than three
slash-separated parts. The ECMAScript-specified ISO year-month-day form is
modelled; host-defined legacy forms are treated as invalid. -/
def jsDateFallbackMonth (s : String) : Option Nat :=
  match splitOnChar '-' s.data with
  | [ys, ms, ds] =>
    match digitsToNat ys, digitsToNat ms, digitsToNat ds with
    | some y, some m, some d =>
      if ys.length = 4 ∧ 1 ≤ m ∧ m ≤ 12 ∧ 1 ≤ d ∧ d ≤ daysInMonth m y then some (m - 1)
      else none
    | _, _, _ => none
  | _ => none

/-- Display language of the component. -/
inductive Lang where
  | en
  | es
deriving DecidableEq

/-- The fixed twelve-entry month-name table per language. -/
def monthNames : Lang → List String
  | Lang.en =>
    ["January", "February", "March", "April", "May", "June", "July", "August",
     "September", "October", "November", "December"]
  | Lang.es =>
    ["Enero", "Febrero", "Marzo", "Abril", "Mayo", "Junio", "Julio", "Agosto",
     "Septiembre", "Octubre", "Noviembre", "Diciembre"]

/-- Model of `getMonthFromDate`. -/
def getMonthFromDate (lang : Lang) (dateString : String) : String :=
  if dateString = "" then ""
  else
    let dateParts := splitOnChar '/' dateString.data
    if dateParts.length < 3 then
      match jsDateFallbackMonth dateString with
      | none => ""
      | some idx => (monthNames lang).getD idx ""
    else
      match jsParseInt (dateParts.headD []) with
      | none => ""
      | some n =>
        let monthIndex : Int := n - 1
        if monthIndex < 0 ∨ 11 < monthIndex then ""
        else (monthNames lang).getD monthIndex.toNat ""

/-- One entry of the daily breakdown. -/
structure DailyProfit where
  date : String
  retail : ℚ
  club : ℚ
  total : ℚ
deriving DecidableEq

/-- The aggregation result stored by the component. -/
structure SalesData where
  retailTotal : ℚ
  clubTotal : ℚ
  fileName : String
  dailyData : List DailyProfit
deriving DecidableEq

/-- A raw input row: an association list from column names to cell strings. -/
abbrev RawRow := List (String × String)

/-- Resolution of one logical field from its two locale-variant column names,
the effect of the JavaScript expression that takes the first truthy of the two
cells. A missing key and the empty string are both falsy so they collapse. -/
def resolveField (row : RawRow) (k1 k2 : String) : String :=
  match row.lookup k1 with
  | some v => if v = "" then (row.lookup k2).getD "" else v
  | none => (row.lookup k2).getD ""

def resolveReceiptType (row : RawRow) : String :=
  resolveField row "Receipt Type" "Tipo de Recibo"

def resolveProfit (row : RawRow) : String :=
  resolveField row "Profit" "Ganancia"

def resolveDate (row : RawRow) : String :=
  resolveField row "Date Created" "Fecha de creación"

def resolveCustomer (row : RawRow) : String :=
  resolveField row "Customer Name" "Nombre del Cliente"

/-- The two retail category literals. -/
def isRetailType (t : String) : Prop :=
  t = "Retail Sale" ∨ t = "Venta al menudeo"

instance (t : String) : Decidable (isRetailType t) := by
  unfold isRetailType; infer_instance

/-- The two club category literals. -/
def isClubType (t : String) : Prop :=
  t = "Club Visit/Sale" ∨ t = "Visita al Club / Venta"

instance (t : String) : Decidable (isClubType t) := by
  unfold isClubType; infer_instance

/-- Strip the first dollar sign and then the first comma, the effect of the
two `replace` calls of the source on the profit string. -/
def stripProfit (s : String) : String :=
  String.mk (removeFirstChar ',' (removeFirstChar '$' s.data))

/-- Intermediate accumulation state of `calculateTotals`: the two running
totals and the date-keyed map in insertion order. -/
structure AggState where
  retailTotal : ℚ
  clubTotal : ℚ
  dailyMap : List (String × ℚ × ℚ)
deriving DecidableEq

/-- Update the value at the first occurrence of a key, the effect of mutating
the object held in the JavaScript map (whose keys are unique) in place. -/
def updFirst (m : List (String × ℚ × ℚ)) (k : String) (f : ℚ × ℚ → ℚ × ℚ) :
    List (String × ℚ × ℚ) :=
  match m with
  | [] => []
  | (k2, v) :: t => if k2 = k then (k2, f v) :: t else (k2, v) :: updFirst t k f

/-- Key membership in the daily map. -/
def containsKey (m : List (String × ℚ × ℚ)) (k : String) : Bool :=
  m.any (fun e => e.1 == k)

/-- Create the zero bucket for a date key when it is absent. -/
def ensureBucket (m : List (String × ℚ × ℚ)) (k : String) : List (String × ℚ × ℚ) :=
  if containsKey m k then m else m ++ [(k, (0 : ℚ), (0 : ℚ))]

/-- The daily-bucketing block of the row loop: ensure the bucket for the date
key and add the amount to its retail or club field when the kind matches. -/
def bucketAdd (m : List (String × ℚ × ℚ)) (k : String) (t : String) (p : ℚ) :
    List (String × ℚ × ℚ) :=
  let m1 := ensureBucket m k
  if isRetailType t then updFirst m1 k (fun v => (qadd v.1 p, v.2))
  else if isClubType t then updFirst m1 k (fun v => (v.1, qadd v.2 p))
  else m1

/-- Body of the row loop of `calculateTotals`, on the four resolved fields. -/
def stepCore (acc : AggState) (receiptType profitString dateCreated customerName : String) :
    AggState :=
  if customerName ≠ "" ∧ jsToLower (jsTrim customerName) = "ashley regis" then acc
  else if receiptType ≠ "" ∧ profitString ≠ "" then
    match jsParseFloat (stripProfit profitString) with
    | none => acc
    | some profit =>
      let acc1 :=
        if isRetailType receiptType then
          { acc with retailTotal := qadd acc.retailTotal profit }
        else if isClubType receiptType then
          { acc with clubTotal := qadd acc.clubTotal profit }
        else acc
      if dateCreated ≠ "" then
        { acc1 with dailyMap := bucketAdd acc1.dailyMap dateCreated receiptType profit }
      else acc1
  else acc

/-- One iteration of the row loop of `calculateTotals`. -/
def step (acc : AggState) (row : RawRow) : AggState :=
  stepCore acc (resolveReceiptType row) (resolveProfit row) (resolveDate row)
    (resolveCustomer row)

/-- The accumulation state after the row loop. -/
def aggState (data : List RawRow) : AggState :=
  data.foldl step ⟨0, 0, []⟩

/-- Conversion of one map entry to a daily-series entry, carrying
`total = retail + club`. -/
def mkDaily (e : String × ℚ × ℚ) : DailyProfit :=
  ⟨e.1, e.2.1, e.2.2, qadd e.2.1 e.2.2⟩

/-- The daily series in map insertion order, before the chronological sort. -/
def unsortedDaily (data : List RawRow) : List DailyProfit :=
  ((aggState data).dailyMap).map mkDaily

/-- Comparison used by the chronological sort of the daily series. -/
def byDateLE (a b : DailyProfit) : Prop :=
  dateValOf a.date ≤ dateValOf b.date

instance : DecidableRel byDateLE := fun _ _ => Nat.decLe _ _

instance : IsTotal DailyProfit byDateLE := ⟨fun _ _ => Nat.le_total _ _⟩

instance : IsTrans DailyProfit byDateLE := ⟨fun _ _ _ => Nat.le_trans⟩

/-- Model of `calculateTotals`. -/
def calculateTotals (data : List RawRow) (fileName : String) : SalesData :=
  { retailTotal := (aggState data).retailTotal
    clubTotal := (aggState data).clubTotal
    fileName := fileName
    dailyData := List.insertionSort byDateLE (unsortedDaily data) }

/-- Model of `getAllUniqueMonths`: distinct nonempty month labels of the daily
entries in first-seen order, then sorted with the most recent month first. -/
def latestTime (lang : Lang) (dailyData : List DailyProfit) (m : String) : Nat :=
  ((dailyData.filter (fun d => getMonthFromDate lang d.date == m)).map
    (fun d => dateValOf d.date)).foldl max 0

/-- Effect of one `monthSet.add` call of the source loop: a nonempty label is
appended unless already present. -/
def addMonth (lang : Lang) (acc : List String) (day : DailyProfit) : List String :=
  let month := getMonthFromDate lang day.date
  if month ≠ "" then (if month ∈ acc then acc else acc ++ [month]) else acc

def monthLabelSet (lang : Lang) (dailyData : List DailyProfit) : List String :=
  dailyData.foldl (addMonth lang) []

def getAllUniqueMonths (lang : Lang) (dailyData : List DailyProfit) : List String :=
  if dailyData.isEmpty then []
  else
    List.insertionSort
      (fun a b => latestTime lang dailyData b ≤ latestTime lang dailyData a)
      (monthLabelSet lang dailyData)

/-- Model of `getFilteredDailyData`. -/
def getFilteredDailyData (lang : Lang) (dailyData : List DailyProfit) (month : String) :
    List DailyProfit :=
  if month = "ALL" then dailyData
  else dailyData.filter (fun day => getMonthFromDate lang day.date == month)

/-- Model of `getFilteredTotals`. -/
def getFilteredTotals (lang : Lang) (dailyData : List DailyProfit) (month : String) :
    ℚ × ℚ :=
  let filtered := getFilteredDailyData lang dailyData month
  (filtered.foldl (fun sum day => qadd sum day.retail) 0,
   filtered.foldl (fun sum day => qadd sum day.club) 0)

/-- The English and Spanish category literals for one transaction kind. -/
def enCategory (isClub : Bool) : String :=
  if isClub then "Club Visit/Sale" else "Retail Sale"

def esCategory (isClub : Bool) : String :=
  if isClub then "Visita al Club / Venta" else "Venta al menudeo"

/-- A row written with the English column headers and category value. -/
def enRow (isClub : Bool) (amt d name : String) : RawRow :=
  [("Receipt Type", enCategory isClub), ("Profit", amt), ("Date Created", d),
   ("Customer Name", name)]

/-- The equivalent row written with the Spanish column headers and category
value. -/
def esRow (isClub : Bool) (amt d name : String) : RawRow :=
  [("Tipo de Recibo", esCategory isClub), ("Ganancia", amt), ("Fecha de creación", d),
   ("Nombre del Cliente", name)]

/-- Profit stripping as the claim words it: drop a leading currency symbol,
remove all thousands-separator commas. Stated only to be compared against the
stripping the source actually performs. -/
def claimStripProfit (s : String) : String :=
  let cs := s.data
  let cs1 := match cs with | '$' :: t => t | _ => cs
  String.mk (cs1.filter (fun c => c ≠ ','))

/-- A first slash-part that does not parse to a month number in range. -/
def badMonthHead (s : String) : Bool :=
  match jsParseInt ((splitOnChar '/' s.data).headD []) with
  | none => true
  | some n => decide (n < 1 ∨ 12 < n)

/-- The worked example rows of the specification. -/
def exRows : List RawRow :=
  [[("Receipt Type", "Retail Sale"), ("Profit", "$10.00"), ("Date Created", "01/05/2024")],
   [("Receipt Type", "Club Visit/Sale"), ("Profit", "$5.50"), ("Date Created", "01/05/2024")],
   [("Receipt Type", "Retail Sale"), ("Profit", "$3.00"), ("Date Created", "02/01/2024")]]

/-- The daily series of the worked example of the specification. -/
def exSeries : List DailyProfit :=
  [⟨"01/05/2024", 10, mkRat 11 2, mkRat 31 2⟩, ⟨"02/01/2024", 3, 0, 3⟩]

/-- A recognized retail row with a parseable amount and no date column. -/
def noDateRow : RawRow :=
  [("Receipt Type", "Retail Sale"), ("Profit", "$10.00")]

/-- A row naming the excluded customer with surrounding whitespace and upper
case. -/
def ashleyRow : RawRow :=
  [("Receipt Type", "Retail Sale"), ("Profit", "$10.00"), ("Date Created", "01/05/2024"),
   ("Customer Name", "  ASHLEY REGIS  ")]

/-- The unrecognized-type example row of the specification. -/
def refundRow : RawRow :=
  [("Receipt Type", "Refund"), ("Profit", "$2.00"), ("Date Created", "01/06/2024")]

/-- Rows none of which qualifies for any total or bucket. -/
def junkRows : List RawRow :=
  [[("Receipt Type", "Refund")], [("Profit", "N/A")], [],
   [("Receipt Type", "Retail Sale"), ("Profit", "N/A"), ("Date Created", "01/05/2024")]]

/-- The exclusion guard of the row loop, as a predicate on rows. -/
def excludedRow (row : RawRow) : Prop :=
  resolveCustomer row ≠ "" ∧ jsToLower (jsTrim (resolveCustomer row)) = "ashley regis"

instance (row : RawRow) : Decidable (excludedRow row) := by
  unfold excludedRow; infer_instance

/-- Amount parsed from the resolved profit string of a row. -/
def rowAmount (row : RawRow) : Option ℚ :=
  jsParseFloat (stripProfit (resolveProfit row))

/-- A row adds its amount to one of the two running totals. -/
def rowContributes (row : RawRow) : Prop :=
  ¬ excludedRow row ∧ resolveReceiptType row ≠ "" ∧ resolveProfit row ≠ "" ∧
    (rowAmount row).isSome ∧
    (isRetailType (resolveReceiptType row) ∨ isClubType (resolveReceiptType row))

instance (row : RawRow) : Decidable (rowContributes row) := by
  unfold rowContributes; infer_instance

/-- A row reaches the daily-bucketing block. -/
def rowCreatesBucket (row : RawRow) : Prop :=
  ¬ excludedRow row ∧ resolveReceiptType row ≠ "" ∧ resolveProfit row ≠ "" ∧
    (rowAmount row).isSome ∧ resolveDate row ≠ ""

instance (row : RawRow) : Decidable (rowCreatesBucket row) := by
  unfold rowCreatesBucket; infer_instance

theorem qadd_eq (a b : ℚ) : qadd a b = a + b := (Rat.add_def' a b).symm

theorem stepCore_excluded (acc : AggState) {t p d n : String}
    (hn : n ≠ "") (h : jsToLower (jsTrim n) = "ashley regis") :
    stepCore acc t p d n = acc := by
  unfold stepCore
  rw [if_pos ⟨hn, h⟩]

theorem stepCore_missing (acc : AggState) {t p d n : String} (h : t = "" ∨ p = "") :
    stepCore acc t p d n = acc := by
  unfold stepCore
  split
  · rfl
  · rw [if_neg]
    intro hc
    cases h with
    | inl h0 => exact hc.1 h0
    | inr h0 => exact hc.2 h0

theorem stepCore_noparse (acc : AggState) {t p d n : String}
    (h : jsParseFloat (stripProfit p) = none) :
    stepCore acc t p d n = acc := by
  unfold stepCore
  split
  · rfl
  · split
    · rw [h]
    · rfl

theorem stepCore_some (acc : AggState) {t p d n : String} {q : ℚ}
    (hex : ¬ (n ≠ "" ∧ jsToLower (jsTrim n) = "ashley regis"))
    (ht : t ≠ "") (hp : p ≠ "") (hq : jsParseFloat (stripProfit p) = some q) :
    stepCore acc t p d n =
      (if d ≠ "" then
        { (if isRetailType t then { acc with retailTotal := qadd acc.retailTotal q }
           else if isClubType t then { acc with clubTotal := qadd acc.clubTotal q }
           else acc) with
          dailyMap :=
            bucketAdd
              (if isRetailType t then { acc with retailTotal := qadd acc.retailTotal q }
               else if isClubType t then { acc with clubTotal := qadd acc.clubTotal q }
               else acc).dailyMap d t q }
      else
        (if isRetailType t then { acc with retailTotal := qadd acc.retailTotal q }
         else if isClubType t then { acc with clubTotal := qadd acc.clubTotal q }
         else acc)) := by
  unfold stepCore
  rw [if_neg hex, if_pos ⟨ht, hp⟩, hq]

/-- The accumulating state never changes its daily map except through
`bucketAdd`, and the kind branch never changes the map. -/
theorem kindBranch_dailyMap (acc : AggState) (t : String) (q : ℚ) :
    (if isRetailType t then { acc with retailTotal := qadd acc.retailTotal q }
     else if isClubType t then { acc with clubTotal := qadd acc.clubTotal q }
     else acc).dailyMap = acc.dailyMap := by
  split
  · rfl
  · split <;> rfl

theorem kindBranch_totalsSum (acc : AggState) (t : String) (q : ℚ)
    (hk : isRetailType t ∨ isClubType t) :
    (if isRetailType t then { acc with retailTotal := qadd acc.retailTotal q }
     else if isClubType t then { acc with clubTotal := qadd acc.clubTotal q }
     else acc).retailTotal +
    (if isRetailType t then { acc with retailTotal := qadd acc.retailTotal q }
     else if isClubType t then { acc with clubTotal := qadd acc.clubTotal q }
     else acc).clubTotal = acc.retailTotal + acc.clubTotal + q := by
  by_cases hr : isRetailType t
  · rw [if_pos hr]
    simp only [qadd_eq]
    ring
  · rw [if_neg hr, if_pos (hk.resolve_left hr)]
    simp only [qadd_eq]
    ring

theorem kindBranch_totalsSum_other (acc : AggState) (t : String) (q : ℚ)
    (hr : ¬ isRetailType t) (hc : ¬ isClubType t) :
    (if isRetailType t then { acc with retailTotal := qadd acc.retailTotal q }
     else if isClubType t then { acc with clubTotal := qadd acc.clubTotal q }
     else acc) = acc := by
  rw [if_neg hr, if_neg hc]

/-- Sum of all bucket totals of the daily map. -/
def sumB (m : List (String × ℚ × ℚ)) : ℚ :=
  (m.map (fun e => e.2.1 + e.2.2)).sum

theorem sumB_ensure (m : List (String × ℚ × ℚ)) (k : String) :
    sumB (ensureBucket m k) = sumB m := by
  unfold ensureBucket
  split
  · rfl
  · simp [sumB]

theorem containsKey_ensure (m : List (String × ℚ × ℚ)) (k : String) :
    containsKey (ensureBucket m k) k = true := by
  unfold ensureBucket
  split
  · assumption
  · simp [containsKey]

theorem sumB_updFirst (m : List (String × ℚ × ℚ)) (k : String)
    (f : ℚ × ℚ → ℚ × ℚ) (p : ℚ)
    (hf : ∀ v : ℚ × ℚ, (f v).1 + (f v).2 = v.1 + v.2 + p)
    (h : containsKey m k = true) :
    sumB (updFirst m k f) = sumB m + p := by
  induction m with
  | nil => simp [containsKey] at h
  | cons e tl ih =>
    obtain ⟨k2, v⟩ := e
    by_cases hk : k2 = k
    · simp only [updFirst, if_pos hk, sumB, List.map_cons, List.sum_cons, hf]
      ring
    · have h2 : containsKey tl k = true := by
        simpa [containsKey, hk] using h
      simp only [updFirst, if_neg hk, sumB, List.map_cons, List.sum_cons]
      have := ih h2
      simp only [sumB] at this
      rw [this]
      ring

theorem sumB_bucketAdd (m : List (String × ℚ × ℚ)) (k t : String) (q : ℚ) :
    sumB (bucketAdd m k t q) =
      sumB m + (if isRetailType t ∨ isClubType t then q else 0) := by
  unfold bucketAdd
  by_cases hr : isRetailType t
  · rw [if_pos hr, if_pos (Or.inl hr)]
    rw [sumB_updFirst (ensureBucket m k) k _ q ?_ (containsKey_ensure m k), sumB_ensure]
    intro v
    simp [qadd_eq]
    ring
  · by_cases hc : isClubType t
    · rw [if_neg hr, if_pos hc, if_pos (Or.inr hc)]
      rw [sumB_updFirst (ensureBucket m k) k _ q ?_ (containsKey_ensure m k), sumB_ensure]
      intro v
      simp [qadd_eq]
      ring
    · rw [if_neg hr, if_neg hc, if_neg (by tauto), sumB_ensure, add_zero]

theorem bucketAdd_other (m : List (String × ℚ × ℚ)) (k t : String) (q : ℚ)
    (hr : ¬ isRetailType t) (hc : ¬ isClubType t) :
    bucketAdd m k t q = ensureBucket m k := by
  unfold bucketAdd
  rw [if_neg hr, if_neg hc]

/-- One loop iteration preserves the invariant that the two running totals sum
to the total of all buckets, provided the row does not contribute to a total
while lacking a date. -/
theorem step_inv (acc : AggState) (row : RawRow)
    (hrow : rowContributes row → resolveDate row ≠ "")
    (hacc : acc.retailTotal + acc.clubTotal = sumB acc.dailyMap) :
    (step acc row).retailTotal + (step acc row).clubTotal = sumB (step acc row).dailyMap := by
  by_cases hex : excludedRow row
  · rw [step, stepCore_excluded acc hex.1 hex.2]
    exact hacc
  · by_cases ht : resolveReceiptType row = ""
    · rw [step, stepCore_missing acc (Or.inl ht)]
      exact hacc
    · by_cases hp : resolveProfit row = ""
      · rw [step, stepCore_missing acc (Or.inr hp)]
        exact hacc
      · cases hq : rowAmount row with
        | none =>
          rw [step, stepCore_noparse acc hq]
          exact hacc
        | some q =>
          rw [step, stepCore_some acc hex ht hp hq]
          by_cases hd : resolveDate row = ""
          · rw [if_neg (by simpa using hd)]
            have hnk : ¬ (isRetailType (resolveReceiptType row) ∨
                isClubType (resolveReceiptType row)) := by
              intro hk
              exact hrow ⟨hex, ht, hp, by rw [hq]; rfl, hk⟩ hd
            rw [kindBranch_totalsSum_other acc _ q (fun h => hnk (Or.inl h))
              (fun h => hnk (Or.inr h))]
            exact hacc
          · rw [if_pos hd]
            dsimp only
            rw [kindBranch_dailyMap, sumB_bucketAdd]
            by_cases hk : isRetailType (resolveReceiptType row) ∨
                isClubType (resolveReceiptType row)
            · rw [kindBranch_totalsSum acc _ q hk, if_pos hk, hacc]
            · rw [kindBranch_totalsSum_other acc _ q (fun h => hk (Or.inl h))
                (fun h => hk (Or.inr h)), if_neg hk, add_zero]
              exact hacc

/-- A row that contributes to no running total leaves both totals unchanged. -/
theorem step_totals_of_not_contrib (acc : AggState) (row : RawRow)
    (h : ¬ rowContributes row) :
    (step acc row).retailTotal = acc.retailTotal ∧
    (step acc row).clubTotal = acc.clubTotal := by
  by_cases hex : excludedRow row
  · rw [step, stepCore_excluded acc hex.1 hex.2]
    exact ⟨rfl, rfl⟩
  · by_cases ht : resolveReceiptType row = ""
    · rw [step, stepCore_missing acc (Or.inl ht)]
      exact ⟨rfl, rfl⟩
    · by_cases hp : resolveProfit row = ""
      · rw [step, stepCore_missing acc (Or.inr hp)]
        exact ⟨rfl, rfl⟩
      · cases hq : rowAmount row with
        | none =>
          rw [step, stepCore_noparse acc hq]
          exact ⟨rfl, rfl⟩
        | some q =>
          have hnk : ¬ (isRetailType (resolveReceiptType row) ∨
              isClubType (resolveReceiptType row)) := by
            intro hk
            exact h ⟨hex, ht, hp, by rw [hq]; rfl, hk⟩
          rw [step, stepCore_some acc hex ht hp hq,
            kindBranch_totalsSum_other acc _ q (fun h0 => hnk (Or.inl h0))
              (fun h0 => hnk (Or.inr h0))]
          split <;> exact ⟨rfl, rfl⟩

/-- A row that does not reach the bucketing block leaves the daily map
unchanged. -/
theorem step_map_of_not_bucket (acc : AggState) (row : RawRow)
    (h : ¬ rowCreatesBucket row) :
    (step acc row).dailyMap = acc.dailyMap := by
  by_cases hex : excludedRow row
  · rw [step, stepCore_excluded acc hex.1 hex.2]
  · by_cases ht : resolveReceiptType row = ""
    · rw [step, stepCore_missing acc (Or.inl ht)]
    · by_cases hp : resolveProfit row = ""
      · rw [step, stepCore_missing acc (Or.inr hp)]
      · cases hq : rowAmount row with
        | none =>
          rw [step, stepCore_noparse acc hq]
        | some q =>
          have hd : resolveDate row = "" := by
            by_contra hd0
            exact h ⟨hex, ht, hp, by rw [hq]; rfl, hd0⟩
          rw [step, stepCore_some acc hex ht hp hq, if_neg (by simpa using hd),
            kindBranch_dailyMap]

/-- The fold of the row loop preserves the totals invariant. -/
theorem foldl_step_inv (l : List RawRow) (acc : AggState)
    (h : ∀ r ∈ l, rowContributes r → resolveDate r ≠ "")
    (hacc : acc.retailTotal + acc.clubTotal = sumB acc.dailyMap) :
    (l.foldl step acc).retailTotal + (l.foldl step acc).clubTotal
      = sumB (l.foldl step acc).dailyMap := by
  induction l generalizing acc with
  | nil => exact hacc
  | cons r tl ih =>
    exact ih (step acc r) (fun x hx => h x (List.mem_cons_of_mem r hx))
      (step_inv acc r (h r (List.mem_cons_self r tl)) hacc)

theorem foldl_step_totals (l : List RawRow) (acc : AggState)
    (h : ∀ r ∈ l, ¬ rowContributes r) :
    (l.foldl step acc).retailTotal = acc.retailTotal ∧
    (l.foldl step acc).clubTotal = acc.clubTotal := by
  induction l generalizing acc with
  | nil => exact ⟨rfl, rfl⟩
  | cons r tl ih =>
    have h1 := step_totals_of_not_contrib acc r (h r (List.mem_cons_self r tl))
    have h2 := ih (step acc r) (fun x hx => h x (List.mem_cons_of_mem r hx))
    exact ⟨h2.1.trans h1.1, h2.2.trans h1.2⟩

theorem foldl_step_map (l : List RawRow) (acc : AggState)
    (h : ∀ r ∈ l, ¬ rowCreatesBucket r) :
    (l.foldl step acc).dailyMap = acc.dailyMap := by
  induction l generalizing acc with
  | nil => rfl
  | cons r tl ih =>
    have h1 := step_map_of_not_bucket acc r (h r (List.mem_cons_self r tl))
    have h2 := ih (step acc r) (fun x hx => h x (List.mem_cons_of_mem r hx))
    exact h2.trans h1

/-- Replacing one row of the input by a row on which the loop body acts
identically leaves the whole fold unchanged. -/
theorem foldl_step_middle_congr (pre post : List RawRow) (r1 r2 : RawRow)
    (h : ∀ acc, step acc r1 = step acc r2) (acc : AggState) :
    List.foldl step acc (pre ++ r1 :: post) = List.foldl step acc (pre ++ r2 :: post) := by
  rw [List.foldl_append, List.foldl_append, List.foldl_cons, List.foldl_cons, h]

/-- Dropping a row on which the loop body is the identity leaves the whole
fold unchanged. -/
theorem foldl_step_middle_skip (pre post : List RawRow) (r : RawRow)
    (h : ∀ acc, step acc r = acc) (acc : AggState) :
    List.foldl step acc (pre ++ r :: post) = List.foldl step acc (pre ++ post) := by
  rw [List.foldl_append, List.foldl_append, List.foldl_cons, h]

/-- Left fold of accumulating additions, rewritten as a mapped sum. -/
theorem foldl_qadd_sum (f : DailyProfit → ℚ) (l : List DailyProfit) (a : ℚ) :
    l.foldl (fun s d => qadd s (f d)) a = a + (l.map f).sum := by
  induction l generalizing a with
  | nil => simp
  | cons d tl ih =>
    rw [List.foldl_cons, ih, List.map_cons, List.sum_cons, qadd_eq]
    ring

theorem addMonth_nodup (lang : Lang) (acc : List String) (day : DailyProfit)
    (h : acc.Nodup) : (addMonth lang acc day).Nodup := by
  unfold addMonth
  dsimp only
  split
  · split
    · exact h
    · rename_i hmem
      exact List.Nodup.append h (List.nodup_singleton _)
        (List.disjoint_singleton.mpr hmem)
  · exact h

theorem addMonth_ne_empty (lang : Lang) (acc : List String) (day : DailyProfit)
    (h : ∀ x ∈ acc, x ≠ "") : ∀ x ∈ addMonth lang acc day, x ≠ "" := by
  unfold addMonth
  dsimp only
  split
  · rename_i hm
    split
    · exact h
    · intro x hx
      rcases List.mem_append.mp hx with h1 | h2
      · exact h x h1
      · rw [List.mem_singleton.mp h2]
        exact hm
  · exact h

theorem foldl_addMonth_nodup (lang : Lang) (l : List DailyProfit) (acc : List String)
    (h : acc.Nodup) : (l.foldl (addMonth lang) acc).Nodup := by
  induction l generalizing acc with
  | nil => exact h
  | cons d tl ih => exact ih _ (addMonth_nodup lang acc d h)

theorem foldl_addMonth_ne_empty (lang : Lang) (l : List DailyProfit) (acc : List String)
    (h : ∀ x ∈ acc, x ≠ "") : ∀ x ∈ l.foldl (addMonth lang) acc, x ≠ "" := by
  induction l generalizing acc with
  | nil => exact h
  | cons d tl ih => exact ih _ (addMonth_ne_empty lang acc d h)

theorem monthLabelSet_nodup (lang : Lang) (dailyData : List DailyProfit) :
    (monthLabelSet lang dailyData).Nodup :=
  foldl_addMonth_nodup lang dailyData [] List.nodup_nil

theorem monthLabelSet_ne_empty (lang : Lang) (dailyData : List DailyProfit) :
    ∀ m ∈ monthLabelSet lang dailyData, m ≠ "" :=
  foldl_addMonth_ne_empty lang dailyData [] (by simp)

/-- The stable sort of the daily series does not reorder entries that carry
the same date value: filtering any date value out of the sorted series gives
exactly the corresponding filtering of the insertion-ordered series. -/
theorem filter_key_insertionSort (l : List DailyProfit) (t : Nat) :
    (List.insertionSort byDateLE l).filter (fun e => dateValOf e.date == t)
      = l.filter (fun e => dateValOf e.date == t) := by
  have hpw : (l.filter (fun e => dateValOf e.date == t)).Pairwise byDateLE := by
    apply List.pairwise_of_forall_mem_list
    intro a ha b hb
    have ha3 : dateValOf a.date = t := by simpa using List.of_mem_filter ha
    have hb3 : dateValOf b.date = t := by simpa using List.of_mem_filter hb
    unfold byDateLE
    rw [ha3, hb3]
  have h1 : (l.filter (fun e => dateValOf e.date == t)).Sublist
      (List.insertionSort byDateLE l) :=
    List.sublist_insertionSort hpw (List.filter_sublist l)
  have h2 : ((List.insertionSort byDateLE l).filter
      (fun e => dateValOf e.date == t)).Perm (l.filter (fun e => dateValOf e.date == t)) :=
    (List.perm_insertionSort byDateLE l).filter _
  have h3 : (l.filter (fun e => dateValOf e.date == t)).Sublist
      ((List.insertionSort byDateLE l).filter (fun e => dateValOf e.date == t)) := by
    have h4 := h1.filter (fun e => dateValOf e.date == t)
    rw [List.filter_filter] at h4
    simpa using h4
  exact (h3.eq_of_length h2.length_eq.symm).symm

/-- Sum of the totals of the sorted daily series, reduced to the bucket sum of
the accumulated map. -/
theorem sum_series_totals (data : List RawRow) (fn : String) :
    ((calculateTotals data fn).dailyData.map DailyProfit.total).sum
      = sumB (aggState data).dailyMap := by
  unfold calculateTotals
  dsimp only
  rw [((List.perm_insertionSort byDateLE (unsortedDaily data)).map DailyProfit.total).sum_eq]
  unfold unsortedDaily sumB
  rw [List.map_map]
  congr 1
  apply List.map_congr_left
  intro e _
  simp [mkDaily, DailyProfit.total, qadd_eq, Function.comp_def]

theorem if_empty_id (s : String) : (if s = "" then "" else s) = s := by
  split
  · rename_i h
    exact h.symm
  · rfl

theorem resolveReceiptType_enRow (b : Bool) (amt d name : String) :
    resolveReceiptType (enRow b amt d name) = enCategory b := by
  cases b <;> rfl

theorem resolveReceiptType_esRow (b : Bool) (amt d name : String) :
    resolveReceiptType (esRow b amt d name) = esCategory b := by
  cases b <;> rfl

theorem resolveProfit_enRow (b : Bool) (amt d name : String) :
    resolveProfit (enRow b amt d name) = amt := by
  have h : resolveProfit (enRow b amt d name) = if amt = "" then "" else amt := by
    cases b <;> rfl
  rw [h, if_empty_id]

theorem resolveProfit_esRow (b : Bool) (amt d name : String) :
    resolveProfit (esRow b amt d name) = amt := by
  cases b <;> rfl

theorem resolveDate_enRow (b : Bool) (amt d name : String) :
    resolveDate (enRow b amt d name) = d := by
  have h : resolveDate (enRow b amt d name) = if d = "" then "" else d := by
    cases b <;> rfl
  rw [h, if_empty_id]

theorem resolveDate_esRow (b : Bool) (amt d name : String) :
    resolveDate (esRow b amt d name) = d := by
  cases b <;> rfl

theorem resolveCustomer_enRow (b : Bool) (amt d name : String) :
    resolveCustomer (enRow b amt d name) = name := by
  have h : resolveCustomer (enRow b amt d name) = if name = "" then "" else name := by
    cases b <;> rfl
  rw [h, if_empty_id]

theorem resolveCustomer_esRow (b : Bool) (amt d name : String) :
    resolveCustomer (esRow b amt d name) = name := by
  cases b <;> rfl

theorem bucketAdd_congrType (m : List (String × ℚ × ℚ)) (k : String)
    {t1 t2 : String} (q : ℚ)
    (h1 : isRetailType t1 ↔ isRetailType t2) (h2 : isClubType t1 ↔ isClubType t2) :
    bucketAdd m k t1 q = bucketAdd m k t2 q := by
  unfold bucketAdd
  by_cases hr : isRetailType t1
  · rw [if_pos hr, if_pos (h1.mp hr)]
  · rw [if_neg hr, if_neg (fun hh => hr (h1.mpr hh))]
    by_cases hc : isClubType t1
    · rw [if_pos hc, if_pos (h2.mp hc)]
    · rw [if_neg hc, if_neg (fun hh => hc (h2.mpr hh))]

/-- The loop body only inspects the receipt-type value through emptiness and
the four category literals, so two values agreeing on those act identically. -/
theorem stepCore_congrType (acc : AggState) {t1 t2 : String} (p d n : String)
    (h1 : isRetailType t1 ↔ isRetailType t2) (h2 : isClubType t1 ↔ isClubType t2)
    (h3 : t1 = "" ↔ t2 = "") :
    stepCore acc t1 p d n = stepCore acc t2 p d n := by
  unfold stepCore
  by_cases hg : n ≠ "" ∧ jsToLower (jsTrim n) = "ashley regis"
  · rw [if_pos hg, if_pos hg]
  · rw [if_neg hg, if_neg hg]
    by_cases htp : t1 ≠ "" ∧ p ≠ ""
    · rw [if_pos htp, if_pos ⟨fun he => htp.1 (h3.mpr he), htp.2⟩]
      cases hq : jsParseFloat (stripProfit p) with
      | none => rfl
      | some q =>
        dsimp only
        by_cases hr : isRetailType t1
        · rw [if_pos hr, if_pos (h1.mp hr)]
          by_cases hd : d ≠ ""
          · rw [if_pos hd, if_pos hd, bucketAdd_congrType _ _ q h1 h2]
          · rw [if_neg hd, if_neg hd]
        · rw [if_neg hr, if_neg (fun hh => hr (h1.mpr hh))]
          by_cases hc : isClubType t1
          · rw [if_pos hc, if_pos (h2.mp hc)]
            by_cases hd : d ≠ ""
            · rw [if_pos hd, if_pos hd, bucketAdd_congrType _ _ q h1 h2]
            · rw [if_neg hd, if_neg hd]
          · rw [if_neg hc, if_neg (fun hh => hc (h2.mpr hh))]
            by_cases hd : d ≠ ""
            · rw [if_pos hd, if_pos hd, bucketAdd_congrType _ _ q h1 h2]
            · rw [if_neg hd, if_neg hd]
    · rw [if_neg htp, if_neg (fun hc0 => htp ⟨fun he => hc0.1 (h3.mp he), hc0.2⟩)]

/-- The loop body acts identically on a Spanish-headers row and on the
equivalent English-headers row. -/
theorem step_es_en (acc : AggState) (b : Bool) (amt d name : String) :
    step acc (esRow b amt d name) = step acc (enRow b amt d name) := by
  unfold step
  rw [resolveReceiptType_esRow, resolveReceiptType_enRow, resolveProfit_esRow,
    resolveProfit_enRow, resolveDate_esRow, resolveDate_enRow, resolveCustomer_esRow,
    resolveCustomer_enRow]
  exact stepCore_congrType acc amt d name (by cases b <;> decide) (by cases b <;> decide)
    (by cases b <;> decide)

/-- Effect of one qualifying row on the two running totals. -/
theorem step_totals_eq (acc : AggState) (row : RawRow) (q : ℚ)
    (hex : ¬ excludedRow row) (ht : resolveReceiptType row ≠ "")
    (hp : resolveProfit row ≠ "") (hq : rowAmount row = some q) :
    (step acc row).retailTotal
      = acc.retailTotal + (if isRetailType (resolveReceiptType row) then q else 0)
    ∧ (step acc row).clubTotal
      = acc.clubTotal + (if isRetailType (resolveReceiptType row) then 0
          else if isClubType (resolveReceiptType row) then q else 0) := by
  rw [step, stepCore_some acc hex ht hp hq]
  by_cases hd : resolveDate row ≠ ""
  · simp only [if_pos hd]
    by_cases hr : isRetailType (resolveReceiptType row)
    · simp only [if_pos hr]
      constructor <;> simp [qadd_eq]
    · simp only [if_neg hr]
      by_cases hc : isClubType (resolveReceiptType row)
      · simp only [if_pos hc]
        constructor <;> simp [qadd_eq]
      · simp only [if_neg hc]
        constructor <;> simp
  · simp only [if_neg hd]
    by_cases hr : isRetailType (resolveReceiptType row)
    · simp only [if_pos hr]
      constructor <;> simp [qadd_eq]
    · simp only [if_neg hr]
      by_cases hc : isClubType (resolveReceiptType row)
      · simp only [if_pos hc]
        constructor <;> simp [qadd_eq]
      · simp only [if_neg hc]
        constructor <;> simp

/-- The worked example of the specification, evaluated end to end: the three
example rows produce the documented totals, daily series and month order. -/
theorem spec_example_run :
    calculateTotals exRows "f"
      = ⟨13, mkRat 11 2, "f", exSeries⟩
    ∧ getAllUniqueMonths Lang.en exSeries = ["February", "January"] := by
  refine ⟨by decide, by decide⟩

/-- C1: over any input rows in which every record that contributes to a total
carries a nonempty date, retailTotal plus clubTotal equals the sum of the
daily-series totals; and a record of recognized kind with a parseable amount
but an empty date is still added to the matching running total while leaving
the daily map untouched. -/
theorem claim1_totals_equal_series_sum :
    (∀ (data : List RawRow) (fn : String),
      (∀ r ∈ data, rowContributes r → resolveDate r ≠ "") →
      (calculateTotals data fn).retailTotal + (calculateTotals data fn).clubTotal
        = ((calculateTotals data fn).dailyData.map DailyProfit.total).sum)
    ∧ (∀ (acc : AggState) (row : RawRow) (q : ℚ),
      ¬ excludedRow row → resolveReceiptType row ≠ "" → resolveProfit row ≠ "" →
      rowAmount row = some q → resolveDate row = "" →
      (isRetailType (resolveReceiptType row) →
        step acc row = { acc with retailTotal := acc.retailTotal + q })
      ∧ (¬ isRetailType (resolveReceiptType row) → isClubType (resolveReceiptType row) →
        step acc row = { acc with clubTotal := acc.clubTotal + q })) := by
  constructor
  · intro data fn h
    rw [sum_series_totals]
    unfold calculateTotals aggState
    dsimp only
    exact foldl_step_inv data ⟨0, 0, []⟩ h (by simp [sumB])
  · intro acc row q hex ht hp hq hd
    constructor
    · intro hr
      rw [step, stepCore_some acc hex ht hp hq, if_neg (by simp [hd]), if_pos hr, qadd_eq]
    · intro hr hc
      rw [step, stepCore_some acc hex ht hp hq, if_neg (by simp [hd]), if_neg hr,
        if_pos hc, qadd_eq]

theorem claim1_totals_equal_series_sum_witness :
    ((calculateTotals exRows "f").retailTotal + (calculateTotals exRows "f").clubTotal
      = ((calculateTotals exRows "f").dailyData.map DailyProfit.total).sum)
    ∧ step ⟨0, 0, []⟩ noDateRow
        = { (⟨0, 0, []⟩ : AggState) with
            retailTotal := (⟨0, 0, []⟩ : AggState).retailTotal + 10 } :=
  ⟨claim1_totals_equal_series_sum.1 exRows "f" (by decide),
   (claim1_totals_equal_series_sum.2 ⟨0, 0, []⟩ noDateRow 10 (by decide) (by decide)
      (by decide) (by decide) (by decide)).1 (by decide)⟩

/-- C2: the totals returned by getFilteredTotals are exactly the sums of the
retail and club columns of the entries selected by getFilteredDailyData; the
sentinel month returns the full sequence unchanged, every filter result is a
sub-sequence of the input, and both operations are pure functions of their
arguments in this embedding, so repeated calls agree. -/
theorem claim2_filter_paths_agree :
    ∀ (lang : Lang) (dailyData : List DailyProfit) (month : String),
      (getFilteredTotals lang dailyData month).1
        = ((getFilteredDailyData lang dailyData month).map DailyProfit.retail).sum
      ∧ (getFilteredTotals lang dailyData month).2
        = ((getFilteredDailyData lang dailyData month).map DailyProfit.club).sum
      ∧ getFilteredDailyData lang dailyData "ALL" = dailyData
      ∧ (getFilteredDailyData lang dailyData month).Sublist dailyData := by
  intro lang dailyData month
  refine ⟨?_, ?_, ?_, ?_⟩
  · unfold getFilteredTotals
    dsimp only
    have h := foldl_qadd_sum (fun e => e.retail) (getFilteredDailyData lang dailyData month) 0
    simpa using h
  · unfold getFilteredTotals
    dsimp only
    have h := foldl_qadd_sum (fun e => e.club) (getFilteredDailyData lang dailyData month) 0
    simpa using h
  · unfold getFilteredDailyData
    rw [if_pos rfl]
  · unfold getFilteredDailyData
    split
    · exact List.Sublist.refl _
    · exact List.filter_sublist _

/-- C3: a row whose resolved customer name trims and lowercases to the
excluded literal is skipped entirely: the loop body is the identity on it, and
the whole aggregation of any input containing it equals the aggregation with
the row removed. -/
theorem claim3_excluded_customer_skipped :
    ∀ (acc : AggState) (row : RawRow) (pre post : List RawRow) (fn : String),
      jsToLower (jsTrim (resolveCustomer row)) = "ashley regis" →
      step acc row = acc
      ∧ calculateTotals (pre ++ row :: post) fn = calculateTotals (pre ++ post) fn := by
  intro acc row pre post fn h
  have hn : resolveCustomer row ≠ "" := by
    intro h0
    rw [h0] at h
    exact absurd h (by decide)
  have hstep : ∀ a : AggState, step a row = a := fun a => by
    rw [step, stepCore_excluded a hn h]
  refine ⟨hstep acc, ?_⟩
  unfold calculateTotals unsortedDaily aggState
  rw [foldl_step_middle_skip pre post row hstep]

theorem claim3_excluded_customer_skipped_witness :
    step ⟨0, 0, []⟩ ashleyRow = ⟨0, 0, []⟩
    ∧ calculateTotals ([] ++ ashleyRow :: []) "f" = calculateTotals ([] ++ []) "f" :=
  claim3_excluded_customer_skipped ⟨0, 0, []⟩ ashleyRow [] [] "f" (by decide)

/-- C4 counterexample: the source removes only the first comma, so on the
profit string with two thousands separators the parsed contribution is 1234,
not the 1234567 that stripping all commas as the claim words it would give. -/
theorem claim4_counterexample_first_comma_only :
    jsParseFloat (claimStripProfit "$1,234,567") = some 1234567
    ∧ (calculateTotals [[("Receipt Type", "Retail Sale"), ("Profit", "$1,234,567")]]
        "f").retailTotal = 1234
    ∧ (calculateTotals [[("Receipt Type", "Retail Sale"), ("Profit", "$1,234,567")]]
        "f").retailTotal ≠ 1234567 := by
  refine ⟨by decide, by decide, by decide⟩

/-- C4 as amended: the profit amount is obtained by removing the first dollar
sign and then the first comma anywhere in the resolved profit string and
parsing the longest decimal prefix of the remainder; when the receipt-type or
profit field resolves empty, or that parse fails, the row is skipped entirely
with no error; when the parse succeeds the parsed amount is what the matching
total receives. -/
theorem claim4_amended_profit_parsing :
    (∀ (acc : AggState) (row : RawRow),
      (resolveReceiptType row = "" ∨ resolveProfit row = "" ∨
        jsParseFloat (stripProfit (resolveProfit row)) = none) →
      step acc row = acc)
    ∧ (∀ (acc : AggState) (row : RawRow) (q : ℚ),
      ¬ excludedRow row → resolveReceiptType row ≠ "" → resolveProfit row ≠ "" →
      jsParseFloat (stripProfit (resolveProfit row)) = some q →
      (step acc row).retailTotal
        = acc.retailTotal + (if isRetailType (resolveReceiptType row) then q else 0)
      ∧ (step acc row).clubTotal
        = acc.clubTotal + (if isRetailType (resolveReceiptType row) then 0
            else if isClubType (resolveReceiptType row) then q else 0)) := by
  constructor
  · intro acc row h
    rcases h with h | h | h
    · rw [step, stepCore_missing acc (Or.inl h)]
    · rw [step, stepCore_missing acc (Or.inr h)]
    · rw [step, stepCore_noparse acc h]
  · intro acc row q hex ht hp hq
    exact step_totals_eq acc row q hex ht hp hq

theorem claim4_amended_profit_parsing_witness :
    step ⟨0, 0, []⟩ [("Receipt Type", "Retail Sale"), ("Profit", "N/A"),
        ("Date Created", "01/05/2024")] = ⟨0, 0, []⟩
    ∧ (step ⟨0, 0, []⟩ [("Receipt Type", "Retail Sale"), ("Profit", "$10.50")]).retailTotal
        = (⟨0, 0, []⟩ : AggState).retailTotal +
          (if isRetailType (resolveReceiptType
              [("Receipt Type", "Retail Sale"), ("Profit", "$10.50")])
            then mkRat 21 2 else 0) :=
  ⟨claim4_amended_profit_parsing.1 ⟨0, 0, []⟩ _ (Or.inr (Or.inr (by decide))),
   (claim4_amended_profit_parsing.2 ⟨0, 0, []⟩ _ (mkRat 21 2) (by decide) (by decide)
      (by decide) (by decide)).1⟩

/-- C5: a row written with the Spanish column headers and Spanish category
value aggregates exactly as the equivalent English row with the same amount,
date and customer name, in any surrounding input. -/
theorem claim5_locale_equivalence :
    ∀ (isClub : Bool) (amt d name fn : String) (pre post : List RawRow),
      calculateTotals (pre ++ esRow isClub amt d name :: post) fn
        = calculateTotals (pre ++ enRow isClub amt d name :: post) fn := by
  intro b amt d name fn pre post
  unfold calculateTotals unsortedDaily aggState
  rw [foldl_step_middle_congr pre post _ _ (fun acc => step_es_en acc b amt d name)]

/-- C6: availableMonths never repeats a label; whenever every date of the
series is a valid calendar date (so the source timestamps are defined), the
labels are ordered descending by the most recent date occurring within each
month; on the worked example the order is February before January. The
validity hypothesis scopes the statement to inputs on which the date encoding
of the model coincides in order with the source timestamps. -/
theorem claim6_months_distinct_and_descending :
    ((∀ (lang : Lang) (dailyData : List DailyProfit),
        (getAllUniqueMonths lang dailyData).Nodup)
     ∧ (∀ (lang : Lang) (dailyData : List DailyProfit),
        (∀ day ∈ dailyData, (jsDateTime day.date).isSome) →
        (getAllUniqueMonths lang dailyData).Pairwise
          (fun a b => latestTime lang dailyData b ≤ latestTime lang dailyData a)))
    ∧ getAllUniqueMonths Lang.en exSeries = ["February", "January"] := by
  refine ⟨⟨?_, ?_⟩, by decide⟩
  · intro lang dailyData
    unfold getAllUniqueMonths
    split
    · exact List.nodup_nil
    · exact (List.perm_insertionSort _ _).symm.nodup (monthLabelSet_nodup lang dailyData)
  · intro lang dailyData _
    unfold getAllUniqueMonths
    split
    · exact List.Pairwise.nil
    · exact @List.sorted_insertionSort String
        (fun a b => latestTime lang dailyData b ≤ latestTime lang dailyData a)
        (fun _ _ => Nat.decLe _ _)
        ⟨fun a b => Nat.le_total (latestTime lang dailyData b) (latestTime lang dailyData a)⟩
        ⟨fun _ _ _ h1 h2 => Nat.le_trans h2 h1⟩
        (monthLabelSet lang dailyData)

theorem claim6_months_distinct_and_descending_witness :
    (getAllUniqueMonths Lang.en exSeries).Pairwise
      (fun a b => latestTime Lang.en exSeries b ≤ latestTime Lang.en exSeries a) :=
  claim6_months_distinct_and_descending.1.2 Lang.en exSeries (by decide)

/-- C7: every daily-series entry satisfies total = retail + club; whenever
every bucket date is a valid calendar date the series is sorted ascending by
calendar date; and independently of validity, entries carrying the same date
value keep their first-seen insertion order through the stable sort. -/
theorem claim7_series_sorted_and_total_invariant :
    ∀ (data : List RawRow) (fn : String),
      (∀ e ∈ (calculateTotals data fn).dailyData, e.total = e.retail + e.club)
      ∧ ((∀ e ∈ unsortedDaily data, (jsDateTime e.date).isSome) →
          (calculateTotals data fn).dailyData.Pairwise byDateLE)
      ∧ (∀ t : Nat,
          (calculateTotals data fn).dailyData.filter (fun e => dateValOf e.date == t)
            = (unsortedDaily data).filter (fun e => dateValOf e.date == t)) := by
  intro data fn
  refine ⟨?_, ?_, ?_⟩
  · intro e he
    have he2 : e ∈ unsortedDaily data := by
      unfold calculateTotals at he
      dsimp only at he
      exact (List.mem_insertionSort _).mp he
    unfold unsortedDaily at he2
    obtain ⟨x, _, rfl⟩ := List.mem_map.mp he2
    simp [mkDaily, qadd_eq]
  · intro _
    unfold calculateTotals
    dsimp only
    exact List.sorted_insertionSort byDateLE (unsortedDaily data)
  · intro t
    unfold calculateTotals
    dsimp only
    exact filter_key_insertionSort (unsortedDaily data) t

theorem claim7_series_sorted_and_total_invariant_witness :
    (calculateTotals exRows "f").dailyData.Pairwise byDateLE :=
  (claim7_series_sorted_and_total_invariant exRows "f").2.1 (by decide)

/-- C8: a row with a present receipt-type value matching none of the four
category literals, a parseable amount and a nonempty date only ensures that
the bucket for its exact date string exists, adding nothing to it and leaving
both running totals unchanged. -/
theorem claim8_unrecognized_kind_zero_bucket :
    ∀ (acc : AggState) (row : RawRow) (q : ℚ),
      ¬ excludedRow row → resolveReceiptType row ≠ "" →
      ¬ isRetailType (resolveReceiptType row) → ¬ isClubType (resolveReceiptType row) →
      resolveProfit row ≠ "" → rowAmount row = some q → resolveDate row ≠ "" →
      step acc row = { acc with dailyMap := ensureBucket acc.dailyMap (resolveDate row) } := by
  intro acc row q hex ht hr hc hp hq hd
  rw [step, stepCore_some acc hex ht hp hq, if_pos hd,
    kindBranch_totalsSum_other acc _ q hr hc, bucketAdd_other _ _ _ _ hr hc]

theorem claim8_unrecognized_kind_zero_bucket_witness :
    step ⟨0, 0, []⟩ refundRow
      = { (⟨0, 0, []⟩ : AggState) with
          dailyMap := ensureBucket [] (resolveDate refundRow) } :=
  claim8_unrecognized_kind_zero_bucket ⟨0, 0, []⟩ refundRow 2 (by decide) (by decide)
    (by decide) (by decide) (by decide) (by decide) (by decide)

/-- C9: the aggregation is a total function of its input in this embedding
(no exception path exists for string-valued rows); when no row contributes to
a total both running totals are zero, and when additionally no row reaches
the bucketing block the daily series is empty. -/
theorem claim9_no_qualifying_rows_zero_result :
    ∀ (data : List RawRow) (fn : String),
      (∀ r ∈ data, ¬ rowContributes r) →
      (calculateTotals data fn).retailTotal = 0
      ∧ (calculateTotals data fn).clubTotal = 0
      ∧ ((∀ r ∈ data, ¬ rowCreatesBucket r) → (calculateTotals data fn).dailyData = []) := by
  intro data fn h
  have h1 := foldl_step_totals data ⟨0, 0, []⟩ h
  refine ⟨?_, ?_, ?_⟩
  · unfold calculateTotals aggState
    dsimp only
    exact h1.1
  · unfold calculateTotals aggState
    dsimp only
    exact h1.2
  · intro h2
    have h3 := foldl_step_map data ⟨0, 0, []⟩ h2
    unfold calculateTotals unsortedDaily aggState
    dsimp only
    unfold aggState at h3
    rw [h3]
    rfl

theorem claim9_no_qualifying_rows_zero_result_witness :
    (calculateTotals junkRows "f").retailTotal = 0
    ∧ (calculateTotals junkRows "f").clubTotal = 0
    ∧ (calculateTotals junkRows "f").dailyData = [] :=
  ⟨(claim9_no_qualifying_rows_zero_result junkRows "f" (by decide)).1,
   (claim9_no_qualifying_rows_zero_result junkRows "f" (by decide)).2.1,
   (claim9_no_qualifying_rows_zero_result junkRows "f" (by decide)).2.2 (by decide)⟩

/-- C10: a date string with at least three slash parts whose first part does
not parse to a month number in range gets the empty label with no recourse to
the generic date fallback; the empty label never enters availableMonths, an
entry with the empty label is excluded from every filter by a nonempty,
non-sentinel month while the sentinel returns everything; and on a concrete
series keyed by a year-first date the union of all specific-month filtered
series is empty while the full series is not. -/
theorem claim10_yearfirst_dates_only_under_all :
    (∀ (lang : Lang) (s : String),
      3 ≤ (splitOnChar '/' s.data).length → badMonthHead s = true →
      getMonthFromDate lang s = "")
    ∧ (∀ (lang : Lang) (dailyData : List DailyProfit) (m : String),
        m ∈ getAllUniqueMonths lang dailyData → m ≠ "")
    ∧ (∀ (lang : Lang) (dailyData : List DailyProfit) (month : String)
        (day : DailyProfit),
        getMonthFromDate lang day.date = "" → month ≠ "ALL" → month ≠ "" →
        day ∉ getFilteredDailyData lang dailyData month)
    ∧ (∀ (lang : Lang) (dailyData : List DailyProfit),
        getFilteredDailyData lang dailyData "ALL" = dailyData)
    ∧ (((getAllUniqueMonths Lang.en [⟨"2024/01/05", 10, 0, 10⟩]).foldl
          (fun acc m => acc ++ getFilteredDailyData Lang.en [⟨"2024/01/05", 10, 0, 10⟩] m)
          []) = []
       ∧ ([⟨"2024/01/05", 10, 0, 10⟩] : List DailyProfit) ≠ []) := by
  refine ⟨?_, ?_, ?_, ?_, by decide⟩
  · intro lang s h3 hbad
    have hs : s ≠ "" := by
      intro h0
      rw [h0] at h3
      exact absurd h3 (by decide)
    unfold getMonthFromDate
    rw [if_neg hs]
    dsimp only
    rw [if_neg (Nat.not_lt.mpr h3)]
    cases hq : jsParseInt ((splitOnChar '/' s.data).headD []) with
    | none => rfl
    | some n =>
      unfold badMonthHead at hbad
      rw [hq] at hbad
      have hn : n < 1 ∨ 12 < n := of_decide_eq_true hbad
      dsimp only
      rw [if_pos (by omega)]
  · intro lang dailyData m hm
    unfold getAllUniqueMonths at hm
    split at hm
    · exact absurd hm (List.not_mem_nil m)
    · exact monthLabelSet_ne_empty lang dailyData m ((List.mem_insertionSort _).mp hm)
  · intro lang dailyData month day hlabel hallm hne hmem
    unfold getFilteredDailyData at hmem
    rw [if_neg hallm] at hmem
    have h := List.of_mem_filter hmem
    rw [hlabel] at h
    have h2 : "" = month := by simpa using h
    exact hne h2.symm
  · intro lang dailyData
    unfold getFilteredDailyData
    rw [if_pos rfl]

theorem claim10_yearfirst_dates_only_under_all_witness :
    getMonthFromDate Lang.en "2024/01/05" = ""
    ∧ getMonthFromDate Lang.en "13/01/2024" = ""
    ∧ (⟨"2024/01/05", 10, 0, 10⟩ : DailyProfit) ∉
        getFilteredDailyData Lang.en [⟨"2024/01/05", 10, 0, 10⟩] "January" :=
  ⟨claim10_yearfirst_dates_only_under_all.1 Lang.en "2024/01/05" (by decide) (by decide),
   claim10_yearfirst_dates_only_under_all.1 Lang.en "13/01/2024" (by decide) (by decide),
   claim10_yearfirst_dates_only_under_all.2.2.1 Lang.en [⟨"2024/01/05", 10, 0, 10⟩]
     "January" ⟨"2024/01/05", 10, 0, 10⟩ (by decide) (by decide) (by decide)⟩
